import Mathlib

/-!
Shallow embedding of the Santorini rules engine
(`src/santorini/SantoriniLogicNumba.py` and the serialization helpers of
`src/santorini/proxy.py`).

The board state is a 5×5×3 array of int8 values; we model each of the three
channels (`workers`, `levels`, `gods_power`/meta) as a flat row-major list of
25 integers, with int8 wrap-around made explicit where the code can overflow.
Fallible operations (Python `raise`) are modelled with `Except`.

The module `SantoriniConstants` is imported by the engine but is not part of
the sources; the constants and the action codec it provides are modelled from
the spec where indicated.
-/

namespace Santorini

/-- Int8 wrap-around: the value an int8 store of `x` produces. -/
def wrap8 (x : Int) : Int := (x + 128) % 256 - 128

/-- Negation as numpy performs it on an int8 array (wraps at -128). -/
def neg8 (x : Int) : Int := wrap8 (-x)

/-- Absolute value as `np.abs` computes it on int8 (|-128| wraps to -128). -/
def abs8 (x : Int) : Int := wrap8 (if x < 0 then -x else x)

/-- Modelled from the spec: `NB_GODS`, the number of supported ability ids,
"fixed to 1 no-ability value in this build" (§4 Action). Missing module
`SantoriniConstants`. -/
def NB_GODS : Nat := 1

/-- Modelled from the spec: `NO_GOD`, the no-ability sentinel id (the only
ability id, hence 0). Missing module `SantoriniConstants`. -/
def NO_GOD : Nat := 0

/-- Modelled from the spec: `NO_MOVE`, the "no move" sentinel direction: the
zero offset of the 3×3 neighbourhood, which is index 4 of the delta table of
`_apply_direction`. Missing module `SantoriniConstants`. -/
def NO_MOVE : Nat := 4

/-- Modelled from the spec: `NO_BUILD`, the "no build" sentinel direction,
likewise index 4 (the zero offset). Missing module `SantoriniConstants`. -/
def NO_BUILD : Nat := 4

/-- `action_size()` from the source: `NB_GODS * 2 * 9 * 9`. -/
def action_size : Nat := NB_GODS * 2 * 9 * 9

/-- Modelled from the spec: `_encode_action` of the missing module
`SantoriniConstants`, "action_id = ((worker_index*G + ability_id)*9 +
move_direction)*9 + build_direction" (§4.1). -/
def encode_action (worker power move_dir build_dir : Nat) : Nat :=
  ((worker * NB_GODS + power) * 9 + move_dir) * 9 + build_dir

/-- Modelled from the spec: `_decode_action` of the missing module
`SantoriniConstants`, the exact inverse of the packing of §4.1. -/
def decode_action (a : Nat) : Nat × Nat × Nat × Nat :=
  (a / (9 * 9 * NB_GODS), (a / (9 * 9)) % NB_GODS, (a / 9) % 9, a % 9)

/-- The 9 relative offsets of `_apply_direction` (row delta, column delta). -/
def deltas : List (Int × Int) :=
  [(-1, -1), (-1, 0), (-1, 1), (0, -1), (0, 0), (0, 1), (1, -1), (1, 0), (1, 1)]

/-- `_apply_direction(position, direction)` from the source. -/
def apply_direction (position : Int × Int) (direction : Nat) : Int × Int :=
  let delta := deltas.getD direction (0, 0)
  (position.1 + delta.1, position.2 + delta.2)

/-- One 5×5×3 int8 board state, split into its three channels, each a
row-major flat list of 25 cells (cell `(y, x)` at index `5*y + x`). -/
structure Board where
  workers : List Int
  levels : List Int
  meta : List Int
deriving DecidableEq

/-- Resolve one numpy index for axis length 5: indices in `[0, 5)` are used
as-is, indices in `[-5, 0)` wrap, anything else is an `IndexError`. -/
def pyIndex (i : Int) : Option Nat :=
  if 0 ≤ i ∧ i < 5 then some i.toNat
  else if -5 ≤ i ∧ i < 0 then some (i + 5).toNat
  else none

/-- Flat index of a (possibly negative, numpy-style) cell coordinate pair. -/
def cellIdx? (p : Int × Int) : Option Nat := do
  let y ← pyIndex p.1
  let x ← pyIndex p.2
  pure (5 * y + x)

/-- Read a grid cell through numpy indexing; all call sites guard the
coordinates so the out-of-range fallback 0 is never observable. -/
def cellGet (g : List Int) (p : Int × Int) : Int :=
  match cellIdx? p with
  | some k => g.getD k 0
  | none => 0

/-- Write a grid cell through numpy indexing (no-op out of range; call sites
only pass coordinates numpy accepts). -/
def cellSet (g : List Int) (p : Int × Int) (v : Int) : List Int :=
  match cellIdx? p with
  | some k => g.set k v
  | none => g

/-- `np.abs(self.workers).sum()` over the workers channel (int8 abs, the sum
itself is taken in a wide accumulator). -/
def sumAbsWorkers (b : Board) : Int := (b.workers.map abs8).sum

/-- `_get_worker_position(searched_worker)`: first cell (row-major) holding
the worker, else the sentinel `(-1, -1)`. -/
def get_worker_position (b : Board) (searched_worker : Int) : Int × Int :=
  match (List.range 25).find? (fun c => b.workers.getD c 0 == searched_worker) with
  | some c => ((c / 5 : Nat), (c % 5 : Nat))
  | none => (-1, -1)

/-- `_able_to_move_worker_to(old_position, new_position, player)` from the
source: off-grid, same-team occupancy, height > 3 and climb > 1 rejections. -/
def able_to_move_worker_to (b : Board) (old_position new_position : Int × Int)
    (player : Nat) : Bool :=
  if !(decide (0 ≤ new_position.1 ∧ new_position.1 < 5 ∧
      0 ≤ new_position.2 ∧ new_position.2 < 5)) then false
  else
    let target_worker := cellGet b.workers new_position
    if !(target_worker == 0) &&
        ((player == 0 && decide (0 < target_worker)) ||
         (player == 1 && decide (target_worker < 0))) then false
    else
      let new_level := cellGet b.levels new_position
      if decide (3 < new_level) then false
      else
        let old_level := cellGet b.levels old_position
        if decide (old_level + 1 < new_level) then false
        else true

/-- `_able_to_build(position, ignore)` from the source. -/
def able_to_build (b : Board) (position : Int × Int) (ignore : Int) : Bool :=
  if !(decide (0 ≤ position.1 ∧ position.1 < 5 ∧
      0 ≤ position.2 ∧ position.2 < 5)) then false
  else
    let worker := cellGet b.workers position
    if !(worker == 0 || worker == ignore) then false
    else if decide (4 ≤ cellGet b.levels position) then false
    else true

/-- The worker id the source associates with `worker_ids[worker_index]`:
`[1, 2]` for player 0 and `[-1, -2]` for player 1. -/
def workerIdOf (player : Nat) (worker_index : Nat) : Int :=
  (worker_index + 1) * (if player == 0 then 1 else -1)

/-- Guard sequence of one `(worker_index, move_direction, build_direction)`
iteration of the `valid_moves` loops: the `continue` statements of the source
in order (missing worker, `NO_MOVE`, move legality, `NO_BUILD`, build
legality). -/
def actionAllowed (b : Board) (player : Nat)
    (worker_index move_direction build_direction : Nat) : Bool :=
  let worker_id := workerIdOf player worker_index
  let worker_position := get_worker_position b worker_id
  !(worker_position == ((-1 : Int), (-1 : Int))) &&
  !(move_direction == NO_MOVE) &&
  able_to_move_worker_to b worker_position
    (apply_direction worker_position move_direction) player &&
  !(build_direction == NO_BUILD) &&
  able_to_build b (apply_direction (apply_direction worker_position move_direction)
    build_direction) worker_id

/-- Iteration order of the nested `valid_moves` loops. -/
def actionTriples : List (Nat × Nat × Nat) :=
  (List.range 2).flatMap fun wi =>
    (List.range 9).flatMap fun md =>
      (List.range 9).map fun bd => (wi, md, bd)

/-- `valid_moves(player)` from the source, as the boolean mask array it
returns; `im` is the module constant `INIT_METHOD`. -/
def valid_moves (im : Nat) (b : Board) (player : Nat) : List Bool :=
  if im == 2 && !(sumAbsWorkers b == 6) then
    (List.range 25).foldl
      (fun acc c => acc.set c (b.workers.getD c 0 == 0))
      (List.replicate action_size false)
  else
    actionTriples.foldl
      (fun acc t =>
        if actionAllowed b player t.1 t.2.1 t.2.2 then
          acc.set (encode_action t.1 NO_GOD t.2.1 t.2.2) true
        else acc)
      (List.replicate action_size false)

/-- `get_score(player)` from the source: highest level currently under one of
the workers of the player (players other than 0 use the negative-worker scan). -/
def get_score (b : Board) (player : Nat) : Int :=
  (List.range 25).foldl
    (fun highest_level c =>
      let worker := b.workers.getD c 0
      let level := b.levels.getD c 0
      if (if player == 0 then decide (0 < worker) else decide (worker < 0)) &&
          decide (highest_level < level) then level
      else highest_level)
    0

/-- The trailing `_move_count`/`_store_move_count` bookkeeping of
`make_move`: `meta.flat[2 * NB_GODS] = min(count + 1, 127)`. -/
def storeMoveCount (b : Board) : Board :=
  { b with meta := b.meta.set (2 * NB_GODS) (min (b.meta.getD (2 * NB_GODS) 0 + 1) 127) }

/-- Placement-phase cell write `self.workers[y, x] = worker_to_place` with
`y, x = divmod(move, 5)`; numpy raises `IndexError` when `y` exceeds 4. -/
def placeWorker (b : Board) (move : Nat) (worker_to_place : Int) :
    Except String Board :=
  if move / 5 < 5 then
    Except.ok (storeMoveCount { b with workers := b.workers.set move worker_to_place })
  else Except.error "IndexError"

/-- `make_move(move, player, deterministic)` from the source. Python `raise`
is modelled by `Except.error`, so the error paths yield no mutated board; the
returned integer is `1 - player`. -/
def make_move (im : Nat) (b : Board) (move : Nat) (player : Nat) :
    Except String (Board × Int) :=
  if im == 2 && !(sumAbsWorkers b == 6) then
    let sum_workers := sumAbsWorkers b
    if sum_workers == 0 || sum_workers == 1 then
      (placeWorker b move (if player == 0 then 1 else -1)).map
        (fun r => (r, 1 - (player : Int)))
    else if sum_workers == 2 || sum_workers == 4 then
      (placeWorker b move (if player == 0 then 2 else -2)).map
        (fun r => (r, 1 - (player : Int)))
    else Except.error "Unexpected worker count while placing workers"
  else
    let d := decode_action move
    if !(d.2.1 == NO_GOD) then Except.error "Only classic (no-god) moves are supported"
    else
      let worker_id := workerIdOf player d.1
      let worker_old_position := get_worker_position b worker_id
      let worker_new_position := apply_direction worker_old_position d.2.2.1
      match cellIdx? worker_old_position, cellIdx? worker_new_position with
      | some oi, some ni =>
        let workers1 := (b.workers.set oi 0).set ni worker_id
        if !(d.2.2.2 == NO_BUILD) then
          match cellIdx? (apply_direction worker_new_position d.2.2.2) with
          | some bi =>
            Except.ok
              (storeMoveCount
                { b with workers := workers1,
                         levels := b.levels.set bi (wrap8 (b.levels.getD bi 0 + 1)) },
               1 - (player : Int))
          | none => Except.error "IndexError"
        else
          Except.ok (storeMoveCount { b with workers := workers1 }, 1 - (player : Int))
      | _, _ => Except.error "IndexError"

/-- `check_end_game(next_player)` from the source (the float32 score pair is
modelled with integer scores, whose values are -1, 0, 1). -/
def check_end_game (im : Nat) (b : Board) (next_player : Nat) : Int × Int :=
  if im == 2 && !(sumAbsWorkers b == 6) then (0, 0)
  else if get_score b 0 == 3 then (1, -1)
  else if get_score b 1 == 3 then (-1, 1)
  else if (valid_moves im b next_player).count true == 0 then
    (if next_player == 0 then (-1, 1) else (1, -1))
  else (0, 0)

/-- `swap_players(nb_swaps)` from the source: negate the workers channel when
`nb_swaps == 1`, otherwise do nothing. -/
def swap_players (b : Board) (nb_swaps : Nat) : Board :=
  if !(nb_swaps == 1) then b
  else { b with workers := b.workers.map neg8 }

/-- Modelled from the spec: `canonical(state, player)` of the
CanonicalFormAdapter (§4.6), which lives in the game wrapper outside the given
sources; "if player == 1, all occupant signs are negated..., otherwise the
state is returned unchanged", realized through `swap_players` of the source. -/
def getCanonicalForm (b : Board) (player : Nat) : Board :=
  if player == 1 then swap_players b 1 else b

/-- `np.rot90` on one flat 5×5 channel: `out[i][j] = in[j][4-i]`. -/
def rot90Grid (g : List Int) : List Int :=
  (List.range 25).map fun k => g.getD (5 * (k % 5) + (4 - k / 5)) 0

/-- `np.fliplr` on one flat 5×5 channel: `out[i][j] = in[i][4-j]`. -/
def flipLRGrid (g : List Int) : List Int :=
  (List.range 25).map fun k => g.getD (5 * (k / 5) + (4 - k % 5)) 0

/-- `np.flipud` on one flat 5×5 channel: `out[i][j] = in[4-i][j]`. -/
def flipUDGrid (g : List Int) : List Int :=
  (List.range 25).map fun k => g.getD (5 * (4 - k / 5) + k % 5) 0

/-- The in-place rotation step of the `get_symmetries` loop: rotate the
workers and levels channels (the meta channel is not touched). -/
def rotBoard (b : Board) : Board :=
  { b with workers := rot90Grid b.workers, levels := rot90Grid b.levels }

/-- The in-place horizontal-flip step of `get_symmetries`. -/
def flipLRBoard (b : Board) : Board :=
  { b with workers := flipLRGrid b.workers, levels := flipLRGrid b.levels }

/-- The in-place vertical-flip step of `get_symmetries`. -/
def flipUDBoard (b : Board) : Board :=
  { b with workers := flipUDGrid b.workers, levels := flipUDGrid b.levels }

/-- `_apply_permutation(permutation, array)` on one array: start from a copy
and write `copy[permutation[i]] = array[i]` for each `i` (the source applies
one permutation to the policy and the mask simultaneously; the two writes are
independent, so they are modelled one array at a time). -/
def applyPermutation [Inhabited α] (permutation : List Nat) (array : List α) :
    List α :=
  (List.range permutation.length).foldl
    (fun acc i => acc.set (permutation.getD i 0) (array.getD i default)) array

/-- `_swap_workers(array, half_size)` of `get_symmetries`:
`copy[:half], copy[half:] = array[half:], array[:half]`. -/
def swapWorkerHalves (array : List α) (half_size : Nat) : List α :=
  array.drop half_size ++ array.take half_size

/-- The worker-id swap write of `get_symmetries`:
`self.workers[p1], self.workers[p2] = v1, v2` (tuple assignment, i.e. the two
stores happen left to right; sentinel positions `(-1,-1)` hit cell `(4,4)`
through numpy negative indexing). -/
def swapWrite (g : List Int) (p1 p2 : Int × Int) (v1 v2 : Int) : List Int :=
  cellSet (cellSet g p1 v1) p2 v2

/-- `get_symmetries(policy, valid_actions)` from the source, with the board
state threaded explicitly: every in-place mutation and every restore from
`state_backup` becomes one binding, and the function returns the produced
list together with the board state as it is left when the function returns.
The three action-index permutations of the missing `SantoriniConstants`
module are parameters. -/
def get_symmetries [Inhabited α] [Inhabited β] (im : Nat)
    (rotation flipLR flipUD : List Nat) (b : Board)
    (policy : List α) (valid_actions : List β) :
    List (Board × List α × List β) × Board :=
  let state_backup := b
  let s1 := rotBoard b
  let p1 := applyPermutation rotation policy
  let a1 := applyPermutation rotation valid_actions
  let s2 := rotBoard s1
  let p2 := applyPermutation rotation p1
  let a2 := applyPermutation rotation a1
  let s3 := rotBoard s2
  let p3 := applyPermutation rotation p2
  let a3 := applyPermutation rotation a2
  let s4 := state_backup
  let s5 := flipLRBoard s4
  let pLR := applyPermutation flipLR policy
  let aLR := applyPermutation flipLR valid_actions
  let s6 := state_backup
  let s7 := flipUDBoard s6
  let pUD := applyPermutation flipUD policy
  let aUD := applyPermutation flipUD valid_actions
  let s8 := state_backup
  let geometric := [(b, policy, valid_actions), (s1, p1, a1), (s2, p2, a2),
    (s3, p3, a3), (s5, pLR, aLR), (s7, pUD, aUD)]
  if !(im == 2) || sumAbsWorkers s8 == 6 then
    let w1 := get_worker_position s8 1
    let w2 := get_worker_position s8 2
    let s9 := { s8 with workers := swapWrite s8.workers w1 w2 2 1 }
    let swapped_policy := swapWorkerHalves policy (action_size / 2)
    let swapped_actions := swapWorkerHalves valid_actions (action_size / 2)
    let s10 := state_backup
    let wm1 := get_worker_position s10 (-1)
    let wm2 := get_worker_position s10 (-2)
    let s11 := { s10 with workers := swapWrite s10.workers wm1 wm2 (-2) (-1) }
    let s12 := state_backup
    (geometric ++ [(s9, swapped_policy, swapped_actions), (s11, policy, valid_actions)], s12)
  else
    (geometric, s8)

/-- The direction relabelling the quarter rotation induces on the 9 offsets
of `_apply_direction` (offset `(dy, dx)` becomes `(-dx, dy)` under
`np.rot90`). Part of the modelled `SantoriniConstants` data. -/
def rotDirMap : List Nat := [6, 3, 0, 7, 4, 1, 8, 5, 2]

/-- Direction relabelling of `np.fliplr`: `(dy, dx)` becomes `(dy, -dx)`. -/
def flipLRDirMap : List Nat := [2, 1, 0, 5, 4, 3, 8, 7, 6]

/-- Direction relabelling of `np.flipud`: `(dy, dx)` becomes `(-dy, dx)`. -/
def flipUDDirMap : List Nat := [6, 7, 8, 3, 4, 5, 0, 1, 2]

/-- Modelled from the spec: an action-index permutation of the missing
`SantoriniConstants` module; entry `i` is the action id of "the same semantic
move" after the transform (worker and ability kept, both directions
relabelled), per §4.5. -/
def actionPermOf (dirMap : List Nat) : List Nat :=
  (List.range action_size).map fun a =>
    let d := decode_action a
    encode_action d.1 d.2.1 (dirMap.getD d.2.2.1 0) (dirMap.getD d.2.2.2 0)

/-- Modelled from the spec: the `rotation` permutation of
`SantoriniConstants`. -/
def rotationPerm : List Nat := actionPermOf rotDirMap

/-- Modelled from the spec: the `flipLR` permutation of
`SantoriniConstants`. -/
def flipLRPerm : List Nat := actionPermOf flipLRDirMap

/-- Modelled from the spec: the `flipUD` permutation of
`SantoriniConstants`. -/
def flipUDPerm : List Nat := actionPermOf flipUDDirMap

/-- A JSON-style nested payload for the proxy serializers: the board state as
nested lists of plain integers. -/
abbrev Payload := List (List (List Int))

/-- Shape test of the proxy serializers: `array.shape == (5, 5, 3)` for the
nested payload (numpy only reports that shape when the nesting is uniform). -/
def hasShape553 (p : Payload) : Bool :=
  p.length == 5 && p.all fun row => row.length == 5 && row.all fun c => c.length == 3

/-- Entry-wise int8 cast of a payload (`astype(np.int8)` wraps each value). -/
def castPayloadInt8 (p : Payload) : Payload := p.map (List.map (List.map wrap8))

/-- Whether every entry of a payload already fits in int8. -/
def payloadInt8 (p : Payload) : Bool :=
  p.all fun row => row.all fun cell => cell.all fun x =>
    decide (-128 ≤ x ∧ x ≤ 127)

/-- `_serialize_board_state(state)` from `src/santorini/proxy.py`: reject any
shape other than 5×5×3, otherwise return the state cast to int8 as nested
lists. -/
def serialize_board_state (state : Payload) : Except String Payload :=
  if hasShape553 state then Except.ok (castPayloadInt8 state)
  else Except.error "Unexpected board shape while serializing"

/-- `_deserialize_board_state(payload)` from `src/santorini/proxy.py`:
`np.array(payload, dtype=np.int8)` (int8 cast), rejecting any shape other
than 5×5×3. -/
def deserialize_board_state (payload : Payload) : Except String Payload :=
  if hasShape553 payload then Except.ok (castPayloadInt8 payload)
  else Except.error "Unexpected board shape while deserializing"

/-- Whether all four workers are on the grid (the placement phase over). -/
def fourWorkersPlaced (b : Board) : Bool :=
  ([1, -1, 2, -2] : List Int).all fun w =>
    !(get_worker_position b w == ((-1 : Int), (-1 : Int)))

/-- Decidable equality for `Except`, used to evaluate the engine on concrete
inputs. -/
instance [DecidableEq ε] [DecidableEq α] : DecidableEq (Except ε α) := fun x y =>
  match x, y with
  | Except.ok a, Except.ok b =>
    if h : a = b then Decidable.isTrue (by rw [h])
    else Decidable.isFalse (fun hc => h (Except.ok.inj hc))
  | Except.error e, Except.error f =>
    if h : e = f then Decidable.isTrue (by rw [h])
    else Decidable.isFalse (fun hc => h (Except.error.inj hc))
  | Except.ok _, Except.error _ => Decidable.isFalse (fun hc => Except.noConfusion hc)
  | Except.error _, Except.ok _ => Decidable.isFalse (fun hc => Except.noConfusion hc)

section Lemmas

lemma wrap8_eq_self {x : Int} (h1 : -128 ≤ x) (h2 : x ≤ 127) : wrap8 x = x := by
  unfold wrap8; omega

lemma neg8_neg8 {x : Int} (h1 : -128 ≤ x) (h2 : x ≤ 127) : neg8 (neg8 x) = x := by
  unfold neg8 wrap8; omega

lemma map_id_of_forall {α : Type _} {l : List α} {f : α → α}
    (h : ∀ x ∈ l, f x = x) : l.map f = l := by
  induction l with
  | nil => rfl
  | cons a t ih =>
    simp only [List.map_cons, h a (List.mem_cons_self a t),
      ih (fun x hx => h x (List.mem_cons_of_mem a hx))]

lemma getD_set_eq {α : Type _} (l : List α) (i a : Nat) (v d : α) :
    (l.set i v).getD a d =
      if i = a ∧ a < l.length then v else l.getD a d := by
  simp only [List.getD_eq_getElem?_getD, List.getElem?_set]
  by_cases h1 : i = a
  · subst h1
    by_cases h2 : i < l.length
    · simp [h2]
    · simp only [if_pos rfl, if_neg h2, Option.getD_none]
      rw [List.getElem?_eq_none (by omega)]
      simp [h2]
  · simp [h1]

lemma replicate_getD_false (n a : Nat) :
    (List.replicate n false).getD a false = false := by
  simp only [List.getD_eq_getElem?_getD, List.getElem?_replicate]
  split <;> rfl

lemma foldl_set_true_getD {τ : Type _} (cond : τ → Bool) (enc : τ → Nat)
    (step : List Bool → τ → List Bool)
    (hstep : ∀ acc t, step acc t =
      if cond t then acc.set (enc t) true else acc) :
    ∀ (l : List τ) (init : List Bool) (a : Nat),
      (l.foldl step init).getD a false = true →
      init.getD a false = true ∨ ∃ t ∈ l, cond t = true ∧ enc t = a := by
  intro l
  induction l with
  | nil => intro init a h; exact Or.inl h
  | cons t ts ih =>
    intro init a h
    rw [List.foldl_cons, hstep] at h
    rcases ih _ a h with h1 | ⟨u, hu, hcu, heu⟩
    · by_cases hc : cond t = true
      · rw [if_pos hc, getD_set_eq] at h1
        by_cases he : enc t = a ∧ a < init.length
        · exact Or.inr ⟨t, List.mem_cons_self t ts, hc, he.1⟩
        · rw [if_neg he] at h1; exact Or.inl h1
      · rw [if_neg hc] at h1; exact Or.inl h1
    · exact Or.inr ⟨u, List.mem_cons_of_mem t hu, hcu, heu⟩

lemma foldl_set_true_const {τ : Type _} (cond : τ → Bool) (enc : τ → Nat)
    (step : List Bool → τ → List Bool)
    (hstep : ∀ acc t, step acc t =
      if cond t then acc.set (enc t) true else acc) :
    ∀ (l : List τ) (init : List Bool), (∀ t ∈ l, cond t = false) →
      l.foldl step init = init := by
  intro l
  induction l with
  | nil => intro init _; rfl
  | cons t ts ih =>
    intro init h
    rw [List.foldl_cons, hstep, h t (List.mem_cons_self t ts)]
    simp only [Bool.false_eq_true, if_false]
    exact ih init (fun u hu => h u (List.mem_cons_of_mem t hu))

lemma mem_actionTriples {t : Nat × Nat × Nat} (h : t ∈ actionTriples) :
    t.1 < 2 ∧ t.2.1 < 9 ∧ t.2.2 < 9 := by
  simp only [actionTriples, List.mem_flatMap, List.mem_map, List.mem_range] at h
  obtain ⟨wi, hwi, md, hmd, bd, hbd, rfl⟩ := h
  exact ⟨hwi, hmd, hbd⟩

lemma decode_encode {wi md bd : Nat} (h2 : md < 9) (h3 : bd < 9) :
    decode_action (encode_action wi NO_GOD md bd) = (wi, NO_GOD, md, bd) := by
  have h4 : encode_action wi NO_GOD md bd = 81 * wi + 9 * md + bd := by
    unfold encode_action NB_GODS NO_GOD; ring
  rw [h4]
  unfold decode_action NB_GODS NO_GOD
  refine Prod.ext ?_ (Prod.ext ?_ (Prod.ext ?_ ?_)) <;> simp <;> omega

lemma get_worker_position_spec (b : Board) (w : Int) :
    get_worker_position b w = (-1, -1) ∨
    ∃ c : Nat, c < 25 ∧
      get_worker_position b w = (((c / 5 : Nat) : Int), ((c % 5 : Nat) : Int)) := by
  unfold get_worker_position
  cases hf : (List.range 25).find? (fun c => b.workers.getD c 0 == w) with
  | none => exact Or.inl rfl
  | some c =>
    right
    refine ⟨c, ?_, rfl⟩
    have hm := List.mem_of_find?_eq_some hf
    simpa using hm

lemma cellIdx?_coords {c : Nat} (h : c < 25) :
    cellIdx? (((c / 5 : Nat) : Int), ((c % 5 : Nat) : Int)) = some c := by
  unfold cellIdx? pyIndex
  rw [if_pos (by constructor <;> omega)]
  simp only [Option.bind_eq_bind, Option.some_bind]
  rw [if_pos (by constructor <;> omega)]
  simp only [Option.some_bind]
  congr 1
  omega

lemma cellIdx?_of_bounds {p : Int × Int} (h1 : 0 ≤ p.1) (h2 : p.1 < 5)
    (h3 : 0 ≤ p.2) (h4 : p.2 < 5) :
    cellIdx? p = some (5 * p.1.toNat + p.2.toNat) := by
  unfold cellIdx? pyIndex
  rw [if_pos ⟨h1, h2⟩]
  simp only [Option.bind_eq_bind, Option.some_bind]
  rw [if_pos ⟨h3, h4⟩]
  rfl

lemma cellGet_eq_getD {g : List Int} {p : Int × Int} {k : Nat}
    (h : cellIdx? p = some k) : cellGet g p = g.getD k 0 := by
  unfold cellGet
  rw [h]

lemma able_to_build_spec {b : Board} {pos : Int × Int} {ig : Int}
    (h : able_to_build b pos ig = true) :
    (0 ≤ pos.1 ∧ pos.1 < 5 ∧ 0 ≤ pos.2 ∧ pos.2 < 5) ∧
      cellGet b.levels pos < 4 := by
  unfold able_to_build at h
  split at h
  · exact absurd h (by simp)
  · next hb =>
    have hbounds : 0 ≤ pos.1 ∧ pos.1 < 5 ∧ 0 ≤ pos.2 ∧ pos.2 < 5 := by
      simpa using hb
    refine ⟨hbounds, ?_⟩
    dsimp only at h
    split at h
    · exact absurd h (by simp)
    · split at h
      · exact absurd h (by simp)
      · next hl => simpa using hl

lemma able_to_move_spec {b : Board} {oldp newp : Int × Int} {player : Nat}
    (h : able_to_move_worker_to b oldp newp player = true) :
    0 ≤ newp.1 ∧ newp.1 < 5 ∧ 0 ≤ newp.2 ∧ newp.2 < 5 := by
  unfold able_to_move_worker_to at h
  split at h
  · exact absurd h (by simp)
  · next hb => simpa using hb

lemma actionAllowed_spec {b : Board} {player wi md bd : Nat}
    (h : actionAllowed b player wi md bd = true) :
    ¬(get_worker_position b (workerIdOf player wi) = (-1, -1)) ∧
    md ≠ NO_MOVE ∧
    able_to_move_worker_to b (get_worker_position b (workerIdOf player wi))
      (apply_direction (get_worker_position b (workerIdOf player wi)) md)
      player = true ∧
    bd ≠ NO_BUILD ∧
    able_to_build b
      (apply_direction
        (apply_direction (get_worker_position b (workerIdOf player wi)) md) bd)
      (workerIdOf player wi) = true := by
  unfold actionAllowed at h
  simp only [Bool.and_eq_true, Bool.not_eq_eq_eq_not, Bool.not_true,
    beq_eq_false_iff_ne, ne_eq] at h
  obtain ⟨⟨⟨⟨h1, h2⟩, h3⟩, h4⟩, h5⟩ := h
  exact ⟨h1, h2, h3, h4, h5⟩

lemma valid_moves_im1 (b : Board) (player : Nat) :
    valid_moves 1 b player =
      actionTriples.foldl
        (fun acc t =>
          if actionAllowed b player t.1 t.2.1 t.2.2 then
            acc.set (encode_action t.1 NO_GOD t.2.1 t.2.2) true
          else acc)
        (List.replicate action_size false) := by
  unfold valid_moves
  rw [show ((1 : Nat) == 2) = false from rfl]
  rw [Bool.false_and]
  rfl

lemma valid_moves_mask_spec {b : Board} {player a : Nat}
    (h : (valid_moves 1 b player).getD a false = true) :
    ∃ wi md bd : Nat, wi < 2 ∧ md < 9 ∧ bd < 9 ∧
      actionAllowed b player wi md bd = true ∧
      encode_action wi NO_GOD md bd = a := by
  rw [valid_moves_im1] at h
  rcases foldl_set_true_getD
      (fun t : Nat × Nat × Nat => actionAllowed b player t.1 t.2.1 t.2.2)
      (fun t : Nat × Nat × Nat => encode_action t.1 NO_GOD t.2.1 t.2.2)
      (fun (acc : List Bool) (t : Nat × Nat × Nat) =>
        if actionAllowed b player t.1 t.2.1 t.2.2 then
          acc.set (encode_action t.1 NO_GOD t.2.1 t.2.2) true
        else acc)
      (fun acc t => rfl)
      actionTriples (List.replicate action_size false) a h with
    h1 | ⟨t, ht, hc, he⟩
  · rw [replicate_getD_false] at h1
    exact absurd h1 (by simp)
  · obtain ⟨hw, hm, hb⟩ := mem_actionTriples ht
    exact ⟨t.1, t.2.1, t.2.2, hw, hm, hb, hc, he⟩

end Lemmas

section ConcreteInputs

/-- All-zero 5×5 channel. -/
def z25 : List Int := List.replicate 25 0

/-- A zero policy vector over the 162 actions. -/
def pol162 : List Int := List.replicate 162 0

/-- An all-false legality mask over the 162 actions. -/
def msk162 : List Bool := List.replicate 162 false

/-- All four workers placed, with the opponent worker -1 on the cell just
east of worker 1: worker 1 at (2,2), worker -1 at (2,3), worker 2 at (0,0),
worker -2 at (4,4); every height 0. -/
def boardC1 : Board :=
  ⟨(((z25.set 12 1).set 13 (-1)).set 0 2).set 24 (-2), z25, z25⟩

/-- The board after playing action 48 (worker 1 moves east onto the
opponent-occupied cell, then builds back west) from `boardC1`. -/
def boardC1moved : Board :=
  ⟨(boardC1.workers.set 12 0).set 13 1, boardC1.levels.set 12 1,
    boardC1.meta.set 2 1⟩

/-- Worker 1 standing on a height-4 cell at (0,0) next to a height-3 cell at
(0,1); the other workers are parked in corners on height 0. -/
def boardC3 : Board :=
  ⟨(((z25.set 0 1).set 24 2).set 20 (-1)).set 4 (-2), (z25.set 0 4).set 1 3, z25⟩

/-- Worker 1 at (0,0) on height 0 with the adjacent cell (1,1) already at the
height cap 4. -/
def boardC4 : Board :=
  ⟨(((z25.set 0 1).set 24 2).set 20 (-1)).set 4 (-2), z25.set 6 4, z25⟩

/-- Player 0 has worker 1 standing on a height-3 cell at (0,0) and worker 2
standing on a height-4 cell at (0,1); the workers of player 1 are free to move. -/
def boardC5 : Board :=
  ⟨(((z25.set 0 1).set 1 2).set 20 (-1)).set 24 (-2), (z25.set 0 3).set 1 4, z25⟩

/-- Worker 1 of player 0 stands on height 3 at (0,0) while both workers of
player 1, at (4,0) and (4,4), are walled in by height-4 towers: player 1 has
zero legal moves. -/
def boardC5w : Board :=
  ⟨(((z25.set 0 1).set 2 2).set 20 (-1)).set 24 (-2),
    ((((((z25.set 0 3).set 15 4).set 16 4).set 21 4).set 18 4).set 19 4).set 23 4,
    z25⟩

/-- A board with no workers at all. -/
def boardEmpty : Board := ⟨z25, z25, z25⟩

/-- A board whose absolute worker sum is 3, outside the placement-phase
progression 0/1/2/4. -/
def boardThree : Board := ⟨((z25.set 0 1).set 1 (-1)).set 2 1, z25, z25⟩

/-- A uniform all-zero 5×5×3 payload for the proxy serializers. -/
def goodPayload : Payload := List.replicate 5 (List.replicate 5 [0, 0, 0])

/-- A 5×5×3 payload whose first entry, 300, does not fit in int8. -/
def badPayload : Payload :=
  (List.replicate 5 (List.replicate 5 [0, 0, 0])).set 0
    ((List.replicate 5 [0, 0, 0]).set 0 [300, 0, 0])

end ConcreteInputs

section Claims

set_option maxRecDepth 4000 in
/-- C1: the spec mandates that `valid_moves` reject a move whose destination
is occupied by any worker, but the code rejects only same-team occupants: on
`boardC1` the destination (2,3) of action 48 holds the opponent worker -1,
yet the legality bit for action 48 is set. -/
theorem c1_mask_set_for_opponent_occupied_destination :
    get_worker_position boardC1 1 = (2, 2) ∧
    apply_direction (2, 2) 5 = (2, 3) ∧
    cellGet boardC1.workers (2, 3) = -1 ∧
    decode_action 48 = (0, NO_GOD, 5, 3) ∧
    (valid_moves 1 boardC1 0).getD 48 false = true := by
  decide

set_option maxRecDepth 4000 in
/-- C5 counterexample: `boardC5` has the player-0 worker 1 standing on a
height-3 cell, yet `check_end_game` reports (0,0) — the first condition
tests `get_score == 3`, i.e. the maximum worker height of the player, and worker 2
standing on height 4 masks the win. -/
theorem c5_counterexample :
    cellGet boardC5.workers (0, 0) = 1 ∧
    cellGet boardC5.levels (0, 0) = 3 ∧
    check_end_game 1 boardC5 1 = (0, 0) := by
  decide

/-- C5 (amended): `check_end_game` evaluates its conditions in fixed
first-match-wins order, so every state in which the highest worker of player 0
stands exactly on height 3 reports (1,-1), regardless of the move counter and
of whether any player still has legal moves. -/
theorem c5_amended (b : Board) (next_player : Nat)
    (h : get_score b 0 = 3) :
    check_end_game 1 b next_player = (1, -1) := by
  unfold check_end_game
  rw [show ((1 : Nat) == 2) = false from rfl, Bool.false_and]
  rw [if_neg Bool.false_ne_true, if_pos (by rw [h]; rfl)]

/-- C5 witness: on `boardC5w`, the maximum worker height of player 0 is 3 and
player 1 has zero legal moves, and the verdict is still (1,-1). -/
theorem c5_witness :
    (valid_moves 1 boardC5w 1).count true = 0 ∧
    get_score boardC5w 0 = 3 ∧
    check_end_game 1 boardC5w 1 = (1, -1) :=
  ⟨by decide, by decide, c5_amended boardC5w 1 (by decide)⟩

/-- C6: flipping the board to the canonical perspective of player 1 twice restores
the original state — occupant-sign negation (int8 negation over the workers
channel) is an involution on every state whose stored values fit in int8. -/
theorem c6_canonical_involution (b : Board)
    (h : ∀ x ∈ b.workers, -128 ≤ x ∧ x ≤ 127) :
    getCanonicalForm (getCanonicalForm b 1) 1 = b := by
  unfold getCanonicalForm swap_players
  simp only [beq_self_eq_true, if_true, Bool.not_true, Bool.false_eq_true,
    if_false]
  cases b with
  | mk w l m =>
    simp only [Board.mk.injEq, and_true]
    rw [List.map_map]
    exact map_id_of_forall
      (fun x hx => neg8_neg8 (h x hx).1 (h x hx).2)

/-- C6 witness: the double perspective flip restores the concrete board
`boardC1`. -/
theorem c6_witness :
    getCanonicalForm (getCanonicalForm boardC1 1) 1 = boardC1 :=
  c6_canonical_involution boardC1 (by decide)

/-- C9: `get_symmetries` does not observably mutate the board it is called
on — with the board state threaded explicitly through every in-place
mutation and restore, the state it leaves behind equals the input state for
every initialization mode, permutation choice, board, policy and mask. -/
theorem c9_symmetries_restore_board {α β : Type} [Inhabited α] [Inhabited β]
    (im : Nat) (rotation flipLR flipUD : List Nat) (b : Board)
    (policy : List α) (valid_actions : List β) :
    (get_symmetries im rotation flipLR flipUD b policy valid_actions).2 = b := by
  unfold get_symmetries
  cases hb : (!(im == 2) || sumAbsWorkers b == 6) <;>
    simp only [hb, Bool.false_eq_true, Bool.true_eq_false, if_false, if_true]

set_option maxRecDepth 4000 in
/-- C3 counterexample: from `boardC3`, action 52 is legal (bit set by
`valid_moves`) and moves worker 1 down from a height-4 cell onto the
already-height-3 cell (0,1) — a net height decrease — yet `check_end_game`
on the resulting state reports the player-0 win (1,-1). -/
theorem c3_counterexample :
    (valid_moves 1 boardC3 0).getD 52 false = true ∧
    cellGet boardC3.levels (0, 0) = 4 ∧
    cellGet boardC3.levels (0, 1) = 3 ∧
    decode_action 52 = (0, NO_GOD, 5, 7) ∧
    (make_move 1 boardC3 52 0).toOption.map (fun r => check_end_game 1 r.1 1) =
      some (1, -1) := by
  decide

/-- C3 (amended): the win verdicts of `check_end_game` are functions of the
current state alone — player 0 wins exactly when the maximum height under
the workers of player 0 equals 3 (or stalemate falls its way), and symmetrically
for player 1; how the worker arrived, and in particular whether its height
increased over the move, plays no role. -/
theorem c3_amended (b : Board) (next_player : Nat) :
    (check_end_game 1 b next_player = (1, -1) ↔
      (get_score b 0 = 3 ∨
        (get_score b 0 ≠ 3 ∧ get_score b 1 ≠ 3 ∧
          (valid_moves 1 b next_player).count true = 0 ∧ next_player ≠ 0))) ∧
    (check_end_game 1 b next_player = (-1, 1) ↔
      ((get_score b 0 ≠ 3 ∧ get_score b 1 = 3) ∨
        (get_score b 0 ≠ 3 ∧ get_score b 1 ≠ 3 ∧
          (valid_moves 1 b next_player).count true = 0 ∧ next_player = 0))) := by
  unfold check_end_game
  rw [show ((1 : Nat) == 2) = false from rfl, Bool.false_and,
    if_neg Bool.false_ne_true]
  by_cases h0 : get_score b 0 = 3
  · rw [if_pos (by rw [h0]; rfl)]
    constructor
    · simp [h0]
    · constructor
      · intro hcontra
        exact absurd hcontra (by decide)
      · rintro (⟨hne, -⟩ | ⟨hne, -⟩) <;> exact absurd h0 hne
  · rw [if_neg (by simpa using h0)]
    by_cases h1 : get_score b 1 = 3
    · rw [if_pos (by rw [h1]; rfl)]
      constructor
      · constructor
        · intro hcontra
          exact absurd hcontra (by decide)
        · rintro (h | ⟨-, hne, -⟩) <;> [skip; exact absurd h1 hne]
          exact absurd h h0
      · simp [h0, h1]
    · rw [if_neg (by simpa using h1)]
      by_cases hcnt : (valid_moves 1 b next_player).count true = 0
      · rw [if_pos (by rw [hcnt]; rfl)]
        by_cases hnp : next_player = 0
        · subst hnp
          rw [if_pos (show ((0 : Nat) == 0) = true from rfl)]
          constructor
          · constructor
            · intro hcontra
              exact absurd hcontra (by decide)
            · rintro (h | ⟨-, -, -, hne⟩) <;> [exact absurd h h0; exact absurd rfl hne]
          · simp [h0, h1, hcnt]
        · rw [if_neg (by simpa using hnp)]
          constructor
          · simp [h0, h1, hcnt, hnp]
          · constructor
            · intro hcontra
              exact absurd hcontra (by decide)
            · rintro (⟨-, h⟩ | ⟨-, -, -, h⟩) <;> [exact absurd h h1; exact absurd h hnp]
      · rw [if_neg (by simpa using hcnt)]
        constructor
        · constructor
          · intro hcontra
            exact absurd hcontra (by decide)
          · rintro (h | ⟨-, -, h, -⟩) <;> [exact absurd h h0; exact absurd h hcnt]
        · constructor
          · intro hcontra
            exact absurd hcontra (by decide)
          · rintro (⟨-, h⟩ | ⟨-, -, h, -⟩) <;> [exact absurd h h1; exact absurd h hcnt]

set_option maxRecDepth 4000 in
/-- C2 counterexample: on the fully placed `boardC2` the orbit returned by
`get_symmetries` has 8 members (the original, 3 rotations, 2 axis flips and
2 worker swaps), not the 10 the claim asserts. -/
theorem c2_counterexample :
    fourWorkersPlaced boardC1 = true ∧
    (get_symmetries 1 rotationPerm flipLRPerm flipUDPerm boardC1 pol162
      msk162).1.length = 8 ∧
    (get_symmetries 1 rotationPerm flipLRPerm flipUDPerm boardC1 pol162
      msk162).1.length ≠ 10 := by
  decide

/-- C2 (amended): for every fully placed board and every policy/mask pair,
`get_symmetries` returns the original triple unmodified as its first element
and produces exactly 6 geometric variants (identity, 3 quarter rotations,
horizontal flip, vertical flip) plus 2 worker-swap variants, for 8 orbit
members in total including the identity. -/
theorem c2_amended {α β : Type} [Inhabited α] [Inhabited β]
    (rotation flipLR flipUD : List Nat) (b : Board)
    (policy : List α) (valid_actions : List β)
    (h4 : fourWorkersPlaced b = true) :
    (get_symmetries 1 rotation flipLR flipUD b policy valid_actions).1.length = 8 ∧
    (get_symmetries 1 rotation flipLR flipUD b policy valid_actions).1.head? =
      some (b, policy, valid_actions) := by
  exact ⟨rfl, rfl⟩

set_option maxRecDepth 4000 in
/-- C2 witness: the amended orbit count and leading original triple on the
concrete fully placed `boardC1`. -/
theorem c2_witness :
    (get_symmetries 1 rotationPerm flipLRPerm flipUDPerm boardC1 pol162
      msk162).1.length = 8 ∧
    (get_symmetries 1 rotationPerm flipLRPerm flipUDPerm boardC1 pol162
      msk162).1.head? = some (boardC1, pol162, msk162) :=
  c2_amended rotationPerm flipLRPerm flipUDPerm boardC1 pol162 msk162 (by decide)

/-- C7: during the placement phase (deferred-initialization mode,
`INIT_METHOD == 2`, fewer than all workers placed), `make_move` interprets
the action id as a flattened cell index and places the next unplaced worker
of the requesting player there when the absolute worker sum is in the
expected progression 0/1/2/4 (0 or 1 places worker 1 of that player, 2 or 4
places worker 2 of that player), and fails with the unexpected-worker-count
error otherwise, in which case no worker is written. -/
theorem c7_placement_phase (b : Board) (move player : Nat)
    (h6 : sumAbsWorkers b ≠ 6) (h25 : move < 25) :
    ((sumAbsWorkers b = 0 ∨ sumAbsWorkers b = 1) →
      make_move 2 b move player =
        Except.ok
          (storeMoveCount
            { b with workers := b.workers.set move (if player == 0 then 1 else -1) },
           1 - (player : Int))) ∧
    ((sumAbsWorkers b = 2 ∨ sumAbsWorkers b = 4) →
      make_move 2 b move player =
        Except.ok
          (storeMoveCount
            { b with workers := b.workers.set move (if player == 0 then 2 else -2) },
           1 - (player : Int))) ∧
    (sumAbsWorkers b ≠ 0 → sumAbsWorkers b ≠ 1 → sumAbsWorkers b ≠ 2 →
     sumAbsWorkers b ≠ 4 →
      make_move 2 b move player =
        Except.error "Unexpected worker count while placing workers") := by
  have hph : ((2 : Nat) == 2 && !(sumAbsWorkers b == 6)) = true := by
    rw [beq_eq_false_iff_ne.mpr h6]
    rfl
  have hidx : move / 5 < 5 := by omega
  refine ⟨?_, ?_, ?_⟩
  · intro h
    unfold make_move
    rw [if_pos hph]
    have hsum : (sumAbsWorkers b == 0 || sumAbsWorkers b == 1) = true := by
      rcases h with h | h <;> rw [h] <;> rfl
    rw [if_pos hsum]
    unfold placeWorker
    rw [if_pos hidx]
    rfl
  · intro h
    unfold make_move
    rw [if_pos hph]
    have hsum1 : (sumAbsWorkers b == 0 || sumAbsWorkers b == 1) = false := by
      rcases h with h | h <;> rw [h] <;> rfl
    rw [if_neg (by simp [hsum1])]
    have hsum2 : (sumAbsWorkers b == 2 || sumAbsWorkers b == 4) = true := by
      rcases h with h | h <;> rw [h] <;> rfl
    rw [if_pos hsum2]
    unfold placeWorker
    rw [if_pos hidx]
    rfl
  · intro k0 k1 k2 k4
    unfold make_move
    rw [if_pos hph]
    have hsum1 : (sumAbsWorkers b == 0 || sumAbsWorkers b == 1) = false := by
      rw [beq_eq_false_iff_ne.mpr k0, beq_eq_false_iff_ne.mpr k1]
      rfl
    have hsum2 : (sumAbsWorkers b == 2 || sumAbsWorkers b == 4) = false := by
      rw [beq_eq_false_iff_ne.mpr k2, beq_eq_false_iff_ne.mpr k4]
      rfl
    rw [if_neg (by simp [hsum1]), if_neg (by simp [hsum2])]

/-- C7 witness: placing on the empty board (count 0) writes worker 1 of
player 0 at cell 12; on a board with absolute worker sum 3 the call fails
with the unexpected-worker-count error. -/
theorem c7_witness :
    make_move 2 boardEmpty 12 0 =
      Except.ok
        (storeMoveCount
          { boardEmpty with workers := boardEmpty.workers.set 12 1 }, 1) ∧
    make_move 2 boardThree 5 1 =
      Except.error "Unexpected worker count while placing workers" := by
  constructor
  · have h := (c7_placement_phase boardEmpty 12 0 (by decide) (by decide)).1
      (Or.inl (by decide))
    simpa using h
  · exact (c7_placement_phase boardThree 5 1 (by decide) (by decide)).2.2
      (by decide) (by decide) (by decide) (by decide)

lemma castPayloadInt8_id {p : Payload} (h : payloadInt8 p = true) :
    castPayloadInt8 p = p := by
  unfold castPayloadInt8
  unfold payloadInt8 at h
  rw [List.all_eq_true] at h
  refine map_id_of_forall fun row hrow => ?_
  have hrow2 := h row hrow
  rw [List.all_eq_true] at hrow2
  refine map_id_of_forall fun cell hcell => ?_
  have hcell2 := hrow2 cell hcell
  rw [List.all_eq_true] at hcell2
  refine map_id_of_forall fun x hx => ?_
  have := hcell2 x hx
  rw [decide_eq_true_iff] at this
  exact wrap8_eq_self this.1 this.2

/-- C8 counterexample: the shape-5×5×3 payload `badPayload`, whose first
entry is 300, is accepted by the serializer, but the result is not
value-equal to the input — the entry is cast to int8 and comes back as 44. -/
theorem c8_counterexample :
    hasShape553 badPayload = true ∧
    (serialize_board_state badPayload).isOk = true ∧
    (serialize_board_state badPayload).toOption ≠ some badPayload := by
  decide

/-- C8 (amended): both proxy board-state codecs accept exactly the payloads
of shape 5×5×3 and fail on every other shape; on success the result is the
entry-wise int8 cast of the input, hence value-equal to the input exactly
when every entry already fits in int8. -/
theorem c8_amended (p : Payload) :
    ((serialize_board_state p).isOk = hasShape553 p) ∧
    ((deserialize_board_state p).isOk = hasShape553 p) ∧
    (hasShape553 p = true → payloadInt8 p = true →
      serialize_board_state p = Except.ok p ∧
      deserialize_board_state p = Except.ok p) := by
  refine ⟨?_, ?_, ?_⟩
  · unfold serialize_board_state
    cases hs : hasShape553 p
    · rfl
    · rfl
  · unfold deserialize_board_state
    cases hs : hasShape553 p
    · rfl
    · rfl
  · intro hs hi
    unfold serialize_board_state deserialize_board_state
    rw [hs, if_pos rfl, if_pos rfl, castPayloadInt8_id hi]
    exact ⟨rfl, rfl⟩

/-- C8 witness: the all-zero 5×5×3 payload has the right shape and int8
entries, and both codecs return it unchanged. -/
theorem c8_witness :
    serialize_board_state goodPayload = Except.ok goodPayload ∧
    deserialize_board_state goodPayload = Except.ok goodPayload :=
  (c8_amended goodPayload).2.2 (by decide) (by decide)

/-- C10: past the placement phase, `valid_moves` is total even on boards
missing workers — an action bit can only be set when the decoded worker of
the acting player is actually on the grid (an absent worker is skipped and
contributes no bits), and when both workers of the player are absent the
returned mask is all-false. -/
theorem c10_missing_workers_skipped (b : Board) (player : Nat) :
    (∀ a : Nat, (valid_moves 1 b player).getD a false = true →
      get_worker_position b (workerIdOf player (decode_action a).1) ≠ (-1, -1)) ∧
    (get_worker_position b (workerIdOf player 0) = (-1, -1) →
     get_worker_position b (workerIdOf player 1) = (-1, -1) →
     valid_moves 1 b player = List.replicate action_size false) := by
  constructor
  · intro a h
    obtain ⟨wi, md, bd, hwi, hmd, hbd, hA, henc⟩ := valid_moves_mask_spec h
    subst henc
    rw [decode_encode hmd hbd]
    exact (actionAllowed_spec hA).1
  · intro h0 h1
    rw [valid_moves_im1]
    refine foldl_set_true_const
      (fun t : Nat × Nat × Nat => actionAllowed b player t.1 t.2.1 t.2.2)
      (fun t : Nat × Nat × Nat => encode_action t.1 NO_GOD t.2.1 t.2.2)
      (fun (acc : List Bool) (t : Nat × Nat × Nat) =>
        if actionAllowed b player t.1 t.2.1 t.2.2 then
          acc.set (encode_action t.1 NO_GOD t.2.1 t.2.2) true
        else acc)
      (fun acc t => rfl)
      actionTriples (List.replicate action_size false) ?_
    intro t ht
    obtain ⟨hw, -, -⟩ := mem_actionTriples ht
    have hpos : get_worker_position b (workerIdOf player t.1) = (-1, -1) := by
      have h01 : t.1 = 0 ∨ t.1 = 1 := by omega
      rcases h01 with h | h <;> rw [h] <;> assumption
    simp [actionAllowed, hpos]

set_option maxRecDepth 4000 in
/-- C10 witness: on `boardC1` the only bits set belong to present workers
(instantiated at action 48), and on the workerless `boardEmpty` the mask is
identically false. -/
theorem c10_witness :
    get_worker_position boardC1 (workerIdOf 0 (decode_action 48).1) ≠ (-1, -1) ∧
    valid_moves 1 boardEmpty 0 = List.replicate action_size false :=
  ⟨(c10_missing_workers_skipped boardC1 0).1 48 (by decide),
   (c10_missing_workers_skipped boardEmpty 0).2 (by decide) (by decide)⟩

/-- C4 counterexample: `make_move` performs no cap on the build increment:
from `boardC4`, action 52 moves worker 1 east and builds on the height-4
cell (1,1), leaving it at height 5 — so the claimed "capped at 4" and
"preserved by every apply call" both fail on unvalidated actions. -/
theorem c4_counterexample :
    cellGet boardC4.levels (1, 1) = 4 ∧
    decode_action 52 = (0, NO_GOD, 5, 7) ∧
    (make_move 1 boardC4 52 0).toOption.map (fun r => r.1.levels.getD 6 0) =
      some 5 := by
  decide

/-- C4 (amended): the build step of `make_move` adds exactly one to the
target height with no cap; the invariant "every height lies in [0,4]" is
preserved by `make_move` for every action whose bit is set by `valid_moves`
(whose build-legality check admits only targets of height at most 3), though
not for arbitrary unvalidated actions. -/
theorem c4_amended (b : Board) (a player : Nat) (b2 : Board) (np : Int)
    (hinv : ∀ l ∈ b.levels, 0 ≤ l ∧ l ≤ 4)
    (hmask : (valid_moves 1 b player).getD a false = true)
    (happly : make_move 1 b a player = Except.ok (b2, np)) :
    ∀ l ∈ b2.levels, 0 ≤ l ∧ l ≤ 4 := by
  obtain ⟨wi, md, bd, hwi, hmd, hbd, hA, henc⟩ := valid_moves_mask_spec hmask
  obtain ⟨hpos, hnm, hmove, hnb, hbuild⟩ := actionAllowed_spec hA
  subst henc
  unfold make_move at happly
  rw [show ((1 : Nat) == 2) = false from rfl, Bool.false_and,
    if_neg Bool.false_ne_true, decode_encode hmd hbd] at happly
  simp only [beq_self_eq_true, Bool.not_true, Bool.false_eq_true, if_false] at happly
  rcases get_worker_position_spec b (workerIdOf player wi) with hsent | ⟨c, hc25, hcoords⟩
  · exact absurd hsent hpos
  · rw [hcoords] at happly hmove hbuild
    rw [cellIdx?_coords hc25] at happly
    have hmb := able_to_move_spec hmove
    rw [cellIdx?_of_bounds hmb.1 hmb.2.1 hmb.2.2.1 hmb.2.2.2] at happly
    have hbdne : (bd == NO_BUILD) = false := beq_eq_false_iff_ne.mpr hnb
    rw [hbdne] at happly
    simp only [Bool.not_false, if_true] at happly
    have hbb := able_to_build_spec hbuild
    rw [cellIdx?_of_bounds hbb.1.1 hbb.1.2.1 hbb.1.2.2.1 hbb.1.2.2.2] at happly
    rw [Except.ok.injEq, Prod.mk.injEq] at happly
    obtain ⟨hX, -⟩ := happly
    rw [← hX]
    simp only [storeMoveCount]
    intro l hl
    rcases List.mem_or_eq_of_mem_set hl with hmem | hval
    · exact hinv l hmem
    · set K := 5 * (apply_direction
        (apply_direction (((c / 5 : Nat) : Int), ((c % 5 : Nat) : Int)) md)
        bd).1.toNat +
        (apply_direction
          (apply_direction (((c / 5 : Nat) : Int), ((c % 5 : Nat) : Int)) md)
          bd).2.toNat with hK
      have hup : b.levels.getD K 0 < 4 := by
        have := hbb.2
        rw [cellGet_eq_getD
          (cellIdx?_of_bounds hbb.1.1 hbb.1.2.1 hbb.1.2.2.1 hbb.1.2.2.2)] at this
        exact this
      have hlow : 0 ≤ b.levels.getD K 0 := by
        by_cases hlen : K < b.levels.length
        · have hmem2 : b.levels.getD K 0 ∈ b.levels := by
            rw [List.getD_eq_getElem?_getD, List.getElem?_eq_getElem hlen]
            exact List.getElem_mem hlen
          exact (hinv _ hmem2).1
        · rw [List.getD_eq_getElem?_getD, List.getElem?_eq_none (by omega)]
          exact le_refl 0
      rw [hval, wrap8_eq_self (by omega) (by omega)]
      omega

set_option maxRecDepth 4000 in
/-- C4 witness: legal action 48 from `boardC1` (all heights 0) applies
successfully and preserves the height invariant. -/
theorem c4_witness :
    (∀ l ∈ boardC1.levels, 0 ≤ l ∧ l ≤ 4) ∧
    (valid_moves 1 boardC1 0).getD 48 false = true ∧
    make_move 1 boardC1 48 0 = Except.ok (boardC1moved, 1) ∧
    (∀ l ∈ boardC1moved.levels, 0 ≤ l ∧ l ≤ 4) :=
  ⟨by decide, by decide, by decide,
   c4_amended boardC1 48 0 boardC1moved 1 (by decide) (by decide) (by decide)⟩

end Claims

end Santorini
